import Mathlib

/-!
The package pcstat: page-cache status of a file.

A shallow embedding of `pkg/cachestat.go` (`FileCachestat`) and
`pkg/pcstatus.go` (`PcStatus`, `GetPcStatus`).

Conventions of the embedding.

* Go's `int` is taken at 64 bits (the `cachestat` syscall exists on Linux
  only, where the supported targets of interest are 64-bit).  Values of
  `int`/`int64` are mathematical integers kept in `[-2^63, 2^63)` by
  `wrapInt64`; values of `uint64` are naturals below `2^64`.
* A Go `error` is its text; `nil` is `none`.
* A `[]bool` is a `List Bool`; the `nil` slice is `[]`.
* `time.Time` values are naturals (seconds); the zero value is `0`.
* The float field `Percent` is not part of the embedding.
* The operating system, and the function `FileMincore` (the mmap/mincore
  strategy, defined in another file of the package), are parameters (`Env`).
* Every function returns the list of calls it made (`Event`) together
  with its Go result, or a run-time panic.
-/

namespace Pcstat

/-! ## Machine integers -/

/-- Two's-complement wrap-around of a 64-bit signed integer. -/
def wrapInt64 (x : Int) : Int := (x + 2 ^ 63) % 2 ^ 64 - 2 ^ 63

/-- Conversion `uint64(x)`. -/
def toUint64 (x : Int) : Nat := (x % 2 ^ 64).toNat

/-- Go's `a / b` on `int64`: truncated toward zero, wrapping on
`MinInt64 / -1`; `none` is the run-time panic on a zero divisor. -/
def goDiv (a b : Int) : Option Int :=
  if b = 0 then none else some (wrapInt64 (Int.tdiv a b))

/-- Go's `a + b` on `int`. -/
def goAdd (a b : Int) : Int := wrapInt64 (a + b)

/-- Go's `a - b` on `int`. -/
def goSub (a b : Int) : Int := wrapInt64 (a - b)

/-! ## Data model -/

/-- The result record of the syscall, `unix.Cachestat_t` (all `uint64`). -/
structure Cachestat_t where
  Cache : Nat
  Dirty : Nat
  Writeback : Nat
  Evicted : Nat
  Recently_evicted : Nat
deriving DecidableEq, Repr

/-- The byte range handed to the syscall, `unix.CachestatRange`. -/
structure CachestatRange where
  Off : Nat
  Len : Nat
deriving DecidableEq, Repr

/-- File types that `os.FileInfo.Mode()` can report. -/
inductive FileType
  | regular
  | directory
  | symlink
  | namedPipe
  | socket
  | device
  | charDevice
  | irregular
deriving DecidableEq, Repr

/-- The part of `os.FileInfo` that `GetPcStatus` can see. -/
structure FileInfo where
  Size : Int
  ModTime : Nat
  Mode : FileType
deriving DecidableEq, Repr

/-- The method `fi.IsDir()`. -/
def FileInfo.IsDir (fi : FileInfo) : Bool := fi.Mode == FileType.directory

/-- The method `fi.Mode().IsRegular()` (never called by the code). -/
def FileInfo.IsRegular (fi : FileInfo) : Bool := fi.Mode == FileType.regular

/-- The record `PcStatus` (without the float field `Percent`). -/
structure PcStatus where
  Name : String
  Size : Int := 0
  Timestamp : Nat := 0
  Mtime : Nat := 0
  Pages : Int := 0
  Cached : Int := 0
  Uncached : Int := 0
  PPStat : List Bool := []
  Dirty : Option Nat := none
  Writeback : Option Nat := none
  Evicted : Option Nat := none
  RecentlyEvicted : Option Nat := none
deriving DecidableEq, Repr

/-- What the code calls outside itself: the operating system, the clock and
`FileMincore`.  `FileMincore` returns a pair as in Go: the slice and the
error are both delivered to the caller. -/
structure Env where
  Open : String → Except String Nat
  Stat : Nat → Except String FileInfo
  Now : Nat
  Getpagesize : Int
  Cachestat : Nat → CachestatRange → Except String Cachestat_t
  FileMincore : Nat → Int → List Bool × Option String

/-- Calls made while a function runs, in order. -/
inductive Event
  | osOpen (fname : String)
  | fStat (fd : Nat)
  | timeNow
  | callFileCachestat (fd : Nat) (size : Int)
  | cachestatSyscall (fd : Nat) (crange : CachestatRange)
  | callFileMincore (fd : Nat) (size : Int)
  | fClose (fd : Nat)
deriving DecidableEq, Repr

/-- A Go call either returns its results or panics. -/
inductive Outcome (α : Type)
  | ret (a : α)
  | panic (msg : String)
deriving DecidableEq, Repr

/-! ## `FileCachestat` -/

/-- The function `FileCachestat(f, size)`: the counters of the syscall, the
page count, and the error. -/
def FileCachestat (env : Env) (f : Nat) (size : Int) :
    List Event × Outcome (Option Cachestat_t × Int × Option String) :=
  if wrapInt64 size = 0 then
    ([], .ret (none, 0, none))
  else
    match goDiv (wrapInt64 (wrapInt64 (size + wrapInt64 env.Getpagesize) - 1))
        (wrapInt64 env.Getpagesize) with
    | none => ([], .panic "runtime error: integer divide by zero")
    | some q =>
      let pcount := wrapInt64 q
      let crange : CachestatRange := { Off := 0, Len := toUint64 size }
      match env.Cachestat f crange with
      | .error err =>
        ([.cachestatSyscall f crange],
          .ret (none, 0, some ("cachestat syscall failed: " ++ err)))
      | .ok cstat => ([.cachestatSyscall f crange], .ret (some cstat, pcount, none))

/-! ## `GetPcStatus` -/

/-- The counting loop `for _, b := range pcs.PPStat { if b { pcs.Cached++ } }`. -/
def countCached (ppstat : List Bool) (cached : Int) : Int :=
  ppstat.foldl (fun c b => if b then goAdd c 1 else c) cached

/-- The common tail of `GetPcStatus`: `pcs.Uncached = pcs.Pages - pcs.Cached`
and the successful return.  (The float division for `Percent` in between
cannot panic.) -/
def finish (pcs : PcStatus) : Outcome (PcStatus × Option String) :=
  .ret ({ pcs with Uncached := goSub pcs.Pages pcs.Cached }, none)

/-- The function `GetPcStatus(fname, useCachestat)`: the record and the error. -/
def GetPcStatus (env : Env) (fname : String) (useCachestat : Bool) :
    List Event × Outcome (PcStatus × Option String) :=
  let pcs : PcStatus := { Name := fname }
  match env.Open fname with
  | .error err =>
    ([.osOpen fname], .ret (pcs, some ("could not open file for read: " ++ err)))
  | .ok f =>
    let r : List Event × Outcome (PcStatus × Option String) :=
      match env.Stat f with
      | .error err => ([.fStat f], .ret (pcs, some ("could not stat file: " ++ err)))
      | .ok fi =>
        if fi.IsDir then
          ([.fStat f], .ret (pcs, some "file is a directory"))
        else
          let pcs := { pcs with Size := fi.Size, Timestamp := env.Now, Mtime := fi.ModTime }
          if useCachestat then
            match FileCachestat env f fi.Size with
            | (tr, .panic msg) =>
              ([.fStat f, .timeNow, .callFileCachestat f fi.Size] ++ tr, .panic msg)
            | (tr, .ret (_, _, some err)) =>
              ([.fStat f, .timeNow, .callFileCachestat f fi.Size] ++ tr, .ret (pcs, some err))
            | (tr, .ret (none, _, none)) =>
              ([.fStat f, .timeNow, .callFileCachestat f fi.Size] ++ tr,
                .panic "runtime error: invalid memory address or nil pointer dereference")
            | (tr, .ret (some cstat, psize, none)) =>
              let pcs := { pcs with
                Dirty := some cstat.Dirty
                Writeback := some cstat.Writeback
                Evicted := some cstat.Evicted
                RecentlyEvicted := some cstat.Recently_evicted }
              let pcs := { pcs with Cached := wrapInt64 cstat.Cache }
              let pcs := { pcs with Pages := psize }
              ([.fStat f, .timeNow, .callFileCachestat f fi.Size] ++ tr, finish pcs)
          else
            let res := env.FileMincore f fi.Size
            let pcs := { pcs with PPStat := res.1 }
            match res.2 with
            | some err =>
              ([.fStat f, .timeNow, .callFileMincore f fi.Size], .ret (pcs, some err))
            | none =>
              let pcs := { pcs with Cached := countCached pcs.PPStat pcs.Cached }
              let pcs := { pcs with Pages := wrapInt64 pcs.PPStat.length }
              ([.fStat f, .timeNow, .callFileMincore f fi.Size], finish pcs)
    ([.osOpen fname] ++ r.1 ++ [.fClose f], r.2)

/-! ## Records and traces used in the statements -/

/-- The record a successful cachestat run builds. -/
def recCachestat (fname : String) (now : Nat) (fi : FileInfo) (cstat : Cachestat_t)
    (psize : Int) : PcStatus :=
  { Name := fname, Size := fi.Size, Timestamp := now, Mtime := fi.ModTime,
    Pages := psize, Cached := wrapInt64 cstat.Cache,
    Uncached := goSub psize (wrapInt64 cstat.Cache), PPStat := [],
    Dirty := some cstat.Dirty, Writeback := some cstat.Writeback,
    Evicted := some cstat.Evicted, RecentlyEvicted := some cstat.Recently_evicted }

/-- The record a successful mincore run builds. -/
def recMincore (fname : String) (now : Nat) (fi : FileInfo) (s : List Bool) : PcStatus :=
  { Name := fname, Size := fi.Size, Timestamp := now, Mtime := fi.ModTime,
    Pages := wrapInt64 s.length, Cached := countCached s 0,
    Uncached := goSub (wrapInt64 s.length) (countCached s 0), PPStat := s }

/-- The calls that query page residency: the two strategy functions and the
syscall itself. -/
def Event.isQuery : Event → Bool
  | .callFileCachestat _ _ => true
  | .cachestatSyscall _ _ => true
  | .callFileMincore _ _ => true
  | _ => false

/-- The text `sub` occurs inside the text `s`. -/
def containsText (s sub : String) : Prop := ∃ pre post : String, s = pre ++ sub ++ post

/-- The environment `env` with the syscall answering `cstat` except that the
four counters other than `Cache` are replaced. -/
def withOtherCounters (env : Env) (cstat : Cachestat_t) (d w e re : Nat) : Env :=
  { env with
    Cachestat := fun _ _ =>
      .ok { cstat with Dirty := d, Writeback := w, Evicted := e, Recently_evicted := re } }

/-! ## Concrete environments -/

/-- Metadata of a 4096-byte regular file. -/
def fiOnePage : FileInfo := { Size := 4096, ModTime := 1700000000, Mode := .regular }

/-- Counters of a file with one resident, clean page. -/
def cstatOnePage : Cachestat_t :=
  { Cache := 1, Dirty := 0, Writeback := 0, Evicted := 0, Recently_evicted := 0 }

/-- A 4096-byte regular file whose only page is resident. -/
def envOnePage : Env where
  Open := fun _ => .ok 3
  Stat := fun _ => .ok fiOnePage
  Now := 1700000100
  Getpagesize := 4096
  Cachestat := fun _ _ => .ok cstatOnePage
  FileMincore := fun _ _ => ([true], none)

/-- The same file on a system whose syscall reports every counter and two
cached pages, one more than the file has. -/
def envTwoCached : Env :=
  { envOnePage with
    Cachestat := fun _ _ =>
      .ok { Cache := 2, Dirty := 0, Writeback := 0, Evicted := 0, Recently_evicted := 0 } }

/-- Counters with a `Cache` value of `2^63`, the least `uint64` that does not
fit Go's `int`. -/
def cstatHugeCache : Cachestat_t :=
  { Cache := 2 ^ 63, Dirty := 0, Writeback := 0, Evicted := 0, Recently_evicted := 0 }

/-- The one-page file on a system whose syscall answers `cstatHugeCache`. -/
def envHugeCache : Env :=
  { envOnePage with Cachestat := fun _ _ => .ok cstatHugeCache }

/-- The same file on a kernel without the syscall. -/
def envNoSyscall : Env :=
  { envOnePage with Cachestat := fun _ _ => .error "function not implemented" }

/-- An empty regular file; `FileMincore` is left to return the empty slice. -/
def envEmptyFile : Env :=
  { envOnePage with
    Stat := fun _ => .ok { Size := 0, ModTime := 1700000000, Mode := .regular }
    FileMincore := fun _ _ => ([], none) }

/-- A named pipe. -/
def envNamedPipe : Env :=
  { envOnePage with
    Stat := fun _ => .ok { Size := 0, ModTime := 1700000000, Mode := .namedPipe }
    FileMincore := fun _ _ => ([], none) }

/-- A directory. -/
def envDirectory : Env :=
  { envOnePage with
    Stat := fun _ => .ok { Size := 4096, ModTime := 1700000000, Mode := .directory } }

/-- Metadata of a regular file of 4097 bytes: one byte into its second page. -/
def fiTwoPages : FileInfo := { Size := 4097, ModTime := 1700000000, Mode := .regular }

/-- A file of 4097 bytes whose first page is resident. -/
def envTwoPages : Env :=
  { envOnePage with
    Stat := fun _ => .ok fiTwoPages
    FileMincore := fun _ _ => ([true, false], none) }

/-! ## Arithmetic of the wrap-around -/

theorem wrapInt64_lower (x : Int) : -2 ^ 63 ≤ wrapInt64 x := by
  unfold wrapInt64; omega

theorem wrapInt64_upper (x : Int) : wrapInt64 x < 2 ^ 63 := by
  unfold wrapInt64; omega

theorem wrapInt64_eq_self {x : Int} (h1 : -2 ^ 63 ≤ x) (h2 : x < 2 ^ 63) :
    wrapInt64 x = x := by
  unfold wrapInt64; omega

theorem wrapInt64_idem (x : Int) : wrapInt64 (wrapInt64 x) = wrapInt64 x :=
  wrapInt64_eq_self (wrapInt64_lower x) (wrapInt64_upper x)

theorem goAdd_goSub (p c : Int) : goAdd c (goSub p c) = wrapInt64 p := by
  unfold goAdd goSub wrapInt64; omega

theorem add_goSub_iff (p c : Int) :
    c + goSub p c = p ↔ (-2 ^ 63 ≤ p - c ∧ p - c < 2 ^ 63) := by
  unfold goSub wrapInt64; omega

/-! ## Shape of the results -/

theorem GetPcStatus_ok_cases {env : Env} {fname : String} {useCachestat : Bool}
    {r : PcStatus} (h : (GetPcStatus env fname useCachestat).2 = .ret (r, none)) :
    ∃ f fi, env.Open fname = .ok f ∧ env.Stat f = .ok fi ∧ fi.IsDir = false ∧
      ((useCachestat = true ∧ ∃ tr cstat psize,
          FileCachestat env f fi.Size = (tr, .ret (some cstat, psize, none)) ∧
          r = recCachestat fname env.Now fi cstat psize) ∨
       (useCachestat = false ∧ ∃ s, env.FileMincore f fi.Size = (s, none) ∧
          r = recMincore fname env.Now fi s)) := by
  unfold GetPcStatus at h
  cases hO : env.Open fname with
  | error e => simp [hO] at h
  | ok f =>
    cases hS : env.Stat f with
    | error e => simp [hO, hS] at h
    | ok fi =>
      cases hD : fi.IsDir with
      | true => simp [hO, hS, hD] at h
      | false =>
        refine ⟨f, fi, rfl, hS, hD, ?_⟩
        cases useCachestat with
        | true =>
          left
          refine ⟨rfl, ?_⟩
          rcases hF : FileCachestat env f fi.Size with ⟨tr, _ | _⟩
          · rename_i a
            rcases a with ⟨_ | cstat, psize, _ | err⟩
            · simp [hO, hS, hD, hF] at h
            · simp [hO, hS, hD, hF] at h
            · simp [hO, hS, hD, hF, finish] at h
              exact ⟨tr, cstat, psize, rfl, by rw [← h]; rfl⟩
            · simp [hO, hS, hD, hF] at h
          · simp [hO, hS, hD, hF] at h
        | false =>
          right
          refine ⟨rfl, ?_⟩
          rcases hM : env.FileMincore f fi.Size with ⟨s, _ | err⟩
          · simp [hO, hS, hD, hM, finish] at h
            exact ⟨s, rfl, by rw [← h]; rfl⟩
          · simp [hO, hS, hD, hM] at h

theorem FileCachestat_ok_cases {env : Env} {f : Nat} {size : Int} {tr : List Event}
    {cstat : Cachestat_t} {psize : Int}
    (h : FileCachestat env f size = (tr, .ret (some cstat, psize, none))) :
    wrapInt64 size ≠ 0 ∧ wrapInt64 env.Getpagesize ≠ 0 ∧
      env.Cachestat f { Off := 0, Len := toUint64 size } = .ok cstat ∧
      tr = [.cachestatSyscall f { Off := 0, Len := toUint64 size }] ∧
      psize = wrapInt64 (wrapInt64 (Int.tdiv
        (wrapInt64 (wrapInt64 (size + wrapInt64 env.Getpagesize) - 1))
        (wrapInt64 env.Getpagesize))) := by
  unfold FileCachestat goDiv at h
  by_cases h0 : wrapInt64 size = 0
  · simp [h0] at h
  · by_cases hp : wrapInt64 env.Getpagesize = 0
    · simp [h0, hp] at h
    · cases hC : env.Cachestat f { Off := 0, Len := toUint64 size } with
      | error e => simp [h0, hp, hC] at h
      | ok c =>
        simp [h0, hp, hC] at h
        obtain ⟨h1, h2, h3⟩ := h
        exact ⟨h0, hp, by rw [h2], h1.symm, h3.symm⟩

theorem recCachestat_pages_range {env : Env} {f : Nat} {size : Int} {tr : List Event}
    {cstat : Cachestat_t} {psize : Int}
    (h : FileCachestat env f size = (tr, .ret (some cstat, psize, none))) :
    wrapInt64 psize = psize := by
  obtain ⟨-, -, -, -, hp⟩ := FileCachestat_ok_cases h
  rw [hp, wrapInt64_idem]

/-- The page count of `FileCachestat` when nothing overflows: the ceiling of
`size / ps`. -/
theorem pcount_ceil {size ps : Int} (hs : 0 < size) (hp : 0 < ps)
    (hov : size + ps - 1 < 2 ^ 63) :
    ∃ n : Int, wrapInt64 (wrapInt64 (Int.tdiv
        (wrapInt64 (wrapInt64 (size + wrapInt64 ps) - 1)) (wrapInt64 ps))) = n ∧
      (n - 1) * ps < size ∧ size ≤ n * ps := by
  have e1 : wrapInt64 ps = ps := wrapInt64_eq_self (by omega) (by omega)
  have e3 : wrapInt64 (wrapInt64 (size + ps) - 1) = size + ps - 1 := by
    unfold wrapInt64; omega
  have e4 : Int.tdiv (size + ps - 1) ps = (size + ps - 1) / ps :=
    Int.tdiv_eq_ediv (by omega) (by omega)
  have hdm := Int.ediv_add_emod (size + ps - 1) ps
  have hm0 := Int.emod_nonneg (size + ps - 1) (by omega : ps ≠ 0)
  have hm1 := Int.emod_lt_of_pos (size + ps - 1) hp
  have hq0 : 0 ≤ (size + ps - 1) / ps := Int.ediv_nonneg (by omega) (by omega)
  have hq1 : (size + ps - 1) / ps ≤ size + ps - 1 := by
    have : 1 * ((size + ps - 1) / ps) ≤ ps * ((size + ps - 1) / ps) :=
      Int.mul_le_mul_of_nonneg_right (by omega) hq0
    omega
  have e5 : wrapInt64 ((size + ps - 1) / ps) = (size + ps - 1) / ps :=
    wrapInt64_eq_self (by omega) (by omega)
  refine ⟨(size + ps - 1) / ps, ?_, ?_, ?_⟩
  · rw [e1, e3, e4, e5, e5]
  · have : ((size + ps - 1) / ps - 1) * ps = ps * ((size + ps - 1) / ps) - ps := by ring
    omega
  · have : (size + ps - 1) / ps * ps = ps * ((size + ps - 1) / ps) := by ring
    omega

theorem FileCachestat_ok {env : Env} {f : Nat} {size : Int} {cstat : Cachestat_t}
    (h0 : wrapInt64 size ≠ 0) (hp : wrapInt64 env.Getpagesize ≠ 0)
    (hC : env.Cachestat f { Off := 0, Len := toUint64 size } = .ok cstat) :
    FileCachestat env f size =
      ([.cachestatSyscall f { Off := 0, Len := toUint64 size }],
        .ret (some cstat, wrapInt64 (wrapInt64 (Int.tdiv
          (wrapInt64 (wrapInt64 (size + wrapInt64 env.Getpagesize) - 1))
          (wrapInt64 env.Getpagesize))), none)) := by
  unfold FileCachestat goDiv
  simp [h0, hp, hC]

theorem FileCachestat_error {env : Env} {f : Nat} {size : Int} {e : String}
    (h0 : wrapInt64 size ≠ 0) (hp : wrapInt64 env.Getpagesize ≠ 0)
    (hC : env.Cachestat f { Off := 0, Len := toUint64 size } = .error e) :
    FileCachestat env f size =
      ([.cachestatSyscall f { Off := 0, Len := toUint64 size }],
        .ret (none, 0, some ("cachestat syscall failed: " ++ e))) := by
  unfold FileCachestat goDiv
  simp [h0, hp, hC]

theorem GetPcStatus_cachestat_ok {env : Env} {fname : String} {f : Nat} {fi : FileInfo}
    {tr : List Event} {cstat : Cachestat_t} {psize : Int}
    (hO : env.Open fname = .ok f) (hS : env.Stat f = .ok fi) (hD : fi.IsDir = false)
    (hF : FileCachestat env f fi.Size = (tr, .ret (some cstat, psize, none))) :
    GetPcStatus env fname true =
      ([.osOpen fname, .fStat f, .timeNow, .callFileCachestat f fi.Size] ++ tr ++ [.fClose f],
        .ret (recCachestat fname env.Now fi cstat psize, none)) := by
  unfold GetPcStatus
  simp [hO, hS, hD, hF, finish, recCachestat]

theorem GetPcStatus_cachestat_error {env : Env} {fname : String} {f : Nat} {fi : FileInfo}
    {tr : List Event} {c : Option Cachestat_t} {psize : Int} {e : String}
    (hO : env.Open fname = .ok f) (hS : env.Stat f = .ok fi) (hD : fi.IsDir = false)
    (hF : FileCachestat env f fi.Size = (tr, .ret (c, psize, some e))) :
    GetPcStatus env fname true =
      ([.osOpen fname, .fStat f, .timeNow, .callFileCachestat f fi.Size] ++ tr ++ [.fClose f],
        .ret ({ Name := fname, Size := fi.Size, Timestamp := env.Now, Mtime := fi.ModTime },
          some e)) := by
  unfold GetPcStatus
  simp [hO, hS, hD, hF]

theorem GetPcStatus_directory {env : Env} {fname : String} {f : Nat} {fi : FileInfo}
    (useCachestat : Bool)
    (hO : env.Open fname = .ok f) (hS : env.Stat f = .ok fi) (hD : fi.IsDir = true) :
    GetPcStatus env fname useCachestat =
      ([.osOpen fname, .fStat f, .fClose f],
        .ret ({ Name := fname }, some "file is a directory")) := by
  unfold GetPcStatus
  simp [hO, hS, hD]

theorem GetPcStatus_mincore {env : Env} {fname : String} {f : Nat} {fi : FileInfo}
    (hO : env.Open fname = .ok f) (hS : env.Stat f = .ok fi) (hD : fi.IsDir = false) :
    GetPcStatus env fname false =
      ([.osOpen fname, .fStat f, .timeNow, .callFileMincore f fi.Size, .fClose f],
        match (env.FileMincore f fi.Size).2 with
        | some e =>
          .ret ({ Name := fname, Size := fi.Size, Timestamp := env.Now, Mtime := fi.ModTime,
                  PPStat := (env.FileMincore f fi.Size).1 }, some e)
        | none => .ret (recMincore fname env.Now fi (env.FileMincore f fi.Size).1, none)) := by
  unfold GetPcStatus
  simp only [hO, hS, hD]
  cases hM : (env.FileMincore f fi.Size).2 <;> simp [finish, recMincore]

theorem FileCachestat_zero {env : Env} {f : Nat} {size : Int} (h0 : wrapInt64 size = 0) :
    FileCachestat env f size = ([], .ret (none, 0, none)) := by
  unfold FileCachestat
  simp [h0]

theorem GetPcStatus_cachestat_zero_size {env : Env} {fname : String} {f : Nat}
    {fi : FileInfo} (hO : env.Open fname = .ok f) (hS : env.Stat f = .ok fi)
    (hD : fi.IsDir = false) (h0 : wrapInt64 fi.Size = 0) :
    GetPcStatus env fname true =
      ([.osOpen fname, .fStat f, .timeNow, .callFileCachestat f fi.Size, .fClose f],
        .panic "runtime error: invalid memory address or nil pointer dereference") := by
  unfold GetPcStatus
  simp [hO, hS, hD, FileCachestat_zero h0]

theorem countCached_eq (s : List Bool) (c : Int) (hc : 0 ≤ c)
    (h : c + (s.length : Int) < 2 ^ 63) :
    countCached s c = c + (s.count true : Int) := by
  induction s generalizing c with
  | nil => simp [countCached]
  | cons b t ih =>
    have hl : ((b :: t).length : Int) = (t.length : Int) + 1 := by simp
    cases b with
    | false =>
      have := ih c hc (by omega)
      simpa [countCached] using this
    | true =>
      have e : goAdd c 1 = c + 1 := wrapInt64_eq_self (by omega) (by omega)
      have := ih (c + 1) (by omega) (by omega)
      simp only [countCached, List.foldl_cons, if_true, e] at this ⊢
      rw [this, List.count_cons_self]
      push_cast
      ring

theorem GetPcStatus_cachestat_trace {env : Env} {fname : String} {f : Nat} {fi : FileInfo}
    (hO : env.Open fname = .ok f) (hS : env.Stat f = .ok fi) (hD : fi.IsDir = false) :
    (GetPcStatus env fname true).1 =
      [.osOpen fname, .fStat f, .timeNow, .callFileCachestat f fi.Size] ++
        (FileCachestat env f fi.Size).1 ++ [.fClose f] := by
  unfold GetPcStatus
  rcases hF : FileCachestat env f fi.Size with ⟨tr, a | msg⟩
  · rcases a with ⟨_ | cstat, psize, _ | err⟩ <;> simp [hO, hS, hD, hF]
  · simp [hO, hS, hD, hF]

/-- The ways `GetPcStatus` returns an error, with the record that comes with it. -/
theorem GetPcStatus_error_cases {env : Env} {fname : String} {useCachestat : Bool}
    {r : PcStatus} {e : String}
    (h : (GetPcStatus env fname useCachestat).2 = .ret (r, some e)) :
    (r = { Name := fname } ∧
      ((∃ e0, env.Open fname = .error e0) ∨
       (∃ f e0, env.Open fname = .ok f ∧ env.Stat f = .error e0) ∨
       (∃ f fi, env.Open fname = .ok f ∧ env.Stat f = .ok fi ∧ fi.IsDir = true))) ∨
    (∃ f fi, env.Open fname = .ok f ∧ env.Stat f = .ok fi ∧ fi.IsDir = false ∧
      r = { Name := fname, Size := fi.Size, Timestamp := env.Now, Mtime := fi.ModTime,
            PPStat := if useCachestat then [] else (env.FileMincore f fi.Size).1 }) := by
  cases hO : env.Open fname with
  | error e0 =>
    left
    unfold GetPcStatus at h
    simp [hO] at h
    exact ⟨h.1.symm, Or.inl ⟨e0, rfl⟩⟩
  | ok f =>
    cases hS : env.Stat f with
    | error e0 =>
      left
      unfold GetPcStatus at h
      simp [hO, hS] at h
      exact ⟨h.1.symm, Or.inr (Or.inl ⟨f, e0, rfl, hS⟩)⟩
    | ok fi =>
      cases hD : fi.IsDir with
      | true =>
        left
        rw [GetPcStatus_directory useCachestat hO hS hD] at h
        simp at h
        exact ⟨h.1.symm, Or.inr (Or.inr ⟨f, fi, rfl, hS, hD⟩)⟩
      | false =>
        right
        refine ⟨f, fi, rfl, hS, hD, ?_⟩
        cases useCachestat with
        | true =>
          unfold GetPcStatus at h
          rcases hF : FileCachestat env f fi.Size with ⟨tr, a | msg⟩
          · rcases a with ⟨_ | cstat, psize, _ | err⟩
            · simp [hO, hS, hD, hF] at h
            · simp [hO, hS, hD, hF] at h
              simp [← h.1]
            · simp [hO, hS, hD, hF, finish] at h
            · simp [hO, hS, hD, hF] at h
              simp [← h.1]
          · simp [hO, hS, hD, hF] at h
        | false =>
          rw [GetPcStatus_mincore hO hS hD] at h
          cases hM : (env.FileMincore f fi.Size).2 with
          | none => simp [hM] at h
          | some err =>
            simp [hM] at h
            simp [← h.1]

/-! ## The claims -/

/-- C1 as stated fails for a `Cache` counter of `2^63` on a one-page file:
the run succeeds with `Cached = -2^63`, `Uncached = -2^63 + 1` and
`Pages = 1`, and the sum of the first two is not the third. -/
theorem C1_counterexample :
    (GetPcStatus envHugeCache "data.bin" true).2 =
      .ret ({ Name := "data.bin", Size := 4096, Timestamp := 1700000100,
              Mtime := 1700000000, Pages := 1, Cached := -9223372036854775808,
              Uncached := -9223372036854775807,
              Dirty := some 0, Writeback := some 0, Evicted := some 0,
              RecentlyEvicted := some 0 }, none) ∧
    ¬ ((-9223372036854775808 : Int) + -9223372036854775807 = 1) := by
  refine ⟨by decide, by decide⟩

/-- C1 (amended). Whenever `GetPcStatus` returns without error, under either
value of `useCachestat`, the record satisfies `Cached + Uncached = Pages` in
Go's wrapping `int` arithmetic.  As an equation of integers it holds exactly
when `Pages - Cached` fits `int`: for every bool slice under the bitmap
strategy (`hlen`: the slice in the record is shorter than `2^63`, as every Go
slice is), and under the cachestat strategy whenever the `Cache` counter the
syscall returned in that run is below `2^63` and the page count is not
negative. -/
theorem C1_cached_plus_uncached (env : Env) (fname : String) (useCachestat : Bool)
    (r : PcStatus) (hlen : (r.PPStat.length : Int) < 2 ^ 63)
    (h : (GetPcStatus env fname useCachestat).2 = .ret (r, none)) :
    goAdd r.Cached r.Uncached = r.Pages ∧
      (r.Cached + r.Uncached = r.Pages ↔
        (-2 ^ 63 ≤ r.Pages - r.Cached ∧ r.Pages - r.Cached < 2 ^ 63)) ∧
      (useCachestat = false → r.Cached + r.Uncached = r.Pages) ∧
      (useCachestat = true →
        ∃ f fi cstat, env.Open fname = .ok f ∧ env.Stat f = .ok fi ∧
          env.Cachestat f { Off := 0, Len := toUint64 fi.Size } = .ok cstat ∧
          ((cstat.Cache : Int) < 2 ^ 63 → 0 ≤ r.Pages →
            r.Cached + r.Uncached = r.Pages)) := by
  obtain ⟨f, fi, hO, hS, -, hc | hm⟩ := GetPcStatus_ok_cases h
  · obtain ⟨hu, tr, cstat, psize, hF, rfl⟩ := hc
    obtain ⟨-, -, hC, -, -⟩ := FileCachestat_ok_cases hF
    have hps := recCachestat_pages_range hF
    have hpu := wrapInt64_upper psize
    rw [hps] at hpu
    refine ⟨?_, add_goSub_iff _ _, ?_, ?_⟩
    · simp only [recCachestat]
      rw [goAdd_goSub, hps]
    · intro hf
      rw [hu] at hf
      exact absurd hf (by decide)
    · intro _
      refine ⟨f, fi, cstat, hO, hS, hC, ?_⟩
      intro hlt hp0
      have hcv : wrapInt64 (cstat.Cache : Int) = cstat.Cache :=
        wrapInt64_eq_self (by omega) hlt
      simp only [recCachestat] at hp0 ⊢
      rw [add_goSub_iff, hcv]
      constructor <;> omega
  · obtain ⟨hu, s, -, rfl⟩ := hm
    have hl : (s.length : Int) < 2 ^ 63 := hlen
    have hcnt : (s.count true : Int) ≤ s.length := by
      exact_mod_cast List.count_le_length true s
    have hp : wrapInt64 (s.length : Int) = s.length := wrapInt64_eq_self (by omega) hl
    have hcc : countCached s 0 = (s.count true : Int) := by
      have := countCached_eq s 0 (le_refl 0) (by omega)
      simpa using this
    refine ⟨?_, add_goSub_iff _ _, ?_, ?_⟩
    · simp only [recMincore]
      rw [goAdd_goSub, wrapInt64_idem]
    · intro _
      simp only [recMincore]
      rw [add_goSub_iff, hp, hcc]
      constructor <;> omega
    · intro ht
      rw [hu] at ht
      exact absurd ht (by decide)

/-- C1 (amended), at a two-page file whose first page is resident under the
bitmap strategy (`1 + 1 = 2`), and at a one-page file with a `Cache` counter
of 1 under the cachestat strategy (`1 + 0 = 1`). -/
theorem C1_cached_plus_uncached_witness :
    ((((recMincore "two.bin" 1700000100 fiTwoPages [true, false]).PPStat.length : Int)
        < 2 ^ 63 ∧
      (GetPcStatus envTwoPages "two.bin" false).2 =
        .ret (recMincore "two.bin" 1700000100 fiTwoPages [true, false], none)) ∧
    (goAdd (recMincore "two.bin" 1700000100 fiTwoPages [true, false]).Cached
        (recMincore "two.bin" 1700000100 fiTwoPages [true, false]).Uncached =
        (recMincore "two.bin" 1700000100 fiTwoPages [true, false]).Pages ∧
      (recMincore "two.bin" 1700000100 fiTwoPages [true, false]).Cached +
        (recMincore "two.bin" 1700000100 fiTwoPages [true, false]).Uncached =
        (recMincore "two.bin" 1700000100 fiTwoPages [true, false]).Pages)) ∧
    ((((recCachestat "data.bin" 1700000100 fiOnePage cstatOnePage 1).PPStat.length : Int)
        < 2 ^ 63 ∧
      (GetPcStatus envOnePage "data.bin" true).2 =
        .ret (recCachestat "data.bin" 1700000100 fiOnePage cstatOnePage 1, none)) ∧
    (recCachestat "data.bin" 1700000100 fiOnePage cstatOnePage 1).Cached +
        (recCachestat "data.bin" 1700000100 fiOnePage cstatOnePage 1).Uncached =
        (recCachestat "data.bin" 1700000100 fiOnePage cstatOnePage 1).Pages) :=
  ⟨⟨⟨by decide, by decide⟩,
    (C1_cached_plus_uncached envTwoPages "two.bin" false
      (recMincore "two.bin" 1700000100 fiTwoPages [true, false]) (by decide) (by decide)).1,
    (C1_cached_plus_uncached envTwoPages "two.bin" false
      (recMincore "two.bin" 1700000100 fiTwoPages [true, false]) (by decide)
      (by decide)).2.2.1 rfl⟩,
   ⟨⟨by decide, by decide⟩, by
    obtain ⟨f, fi, cstat, -, -, hC, himp⟩ :=
      (C1_cached_plus_uncached envOnePage "data.bin" true
        (recCachestat "data.bin" 1700000100 fiOnePage cstatOnePage 1) (by decide)
        (by decide)).2.2.2 rfl
    have hc : cstat = cstatOnePage := by
      simp [envOnePage] at hC
      exact hC.symm
    subst hc
    exact himp (by decide) (by decide)⟩⟩

/-- C2 (amended). For every size `> 0` and page size `ps > 0` with
`size + ps - 1` within `int64`, when the syscall succeeds `FileCachestat`
returns its counters with a page count `n` that is the ceiling of
`size / ps`: the unique `n` with `(n-1)*ps < size ≤ n*ps`. -/
theorem C2_pcount_is_ceil (env : Env) (f : Nat) (size : Int) (cstat : Cachestat_t)
    (hs : 0 < size) (hp : 0 < env.Getpagesize)
    (hov : size + env.Getpagesize - 1 < 2 ^ 63)
    (hC : env.Cachestat f { Off := 0, Len := toUint64 size } = .ok cstat) :
    ∃ n : Int, (FileCachestat env f size).2 = .ret (some cstat, n, none) ∧
      (n - 1) * env.Getpagesize < size ∧ size ≤ n * env.Getpagesize ∧
      ∀ m : Int, (m - 1) * env.Getpagesize < size → size ≤ m * env.Getpagesize → m = n := by
  obtain ⟨n, hn, h1, h2⟩ := pcount_ceil hs hp hov
  have h0 : wrapInt64 size ≠ 0 := by
    rw [wrapInt64_eq_self (by omega) (by omega)]; omega
  have hp0 : wrapInt64 env.Getpagesize ≠ 0 := by
    rw [wrapInt64_eq_self (by omega) (by omega)]; omega
  refine ⟨n, ?_, h1, h2, ?_⟩
  · rw [FileCachestat_ok h0 hp0 hC, hn]
  · intro m hm1 hm2
    have a1 : (m - 1) * env.Getpagesize < n * env.Getpagesize := lt_of_lt_of_le hm1 h2
    have a2 : (n - 1) * env.Getpagesize < m * env.Getpagesize := lt_of_lt_of_le h1 hm2
    have b1 := lt_of_mul_lt_mul_right a1 (le_of_lt hp)
    have b2 := lt_of_mul_lt_mul_right a2 (le_of_lt hp)
    omega

/-- C2 (amended), at 4097 bytes and 4096-byte pages: two pages. -/
theorem C2_pcount_is_ceil_witness :
    ((0 : Int) < 4097 ∧ (0 : Int) < envOnePage.Getpagesize ∧
      (4097 : Int) + envOnePage.Getpagesize - 1 < 2 ^ 63 ∧
      envOnePage.Cachestat 3 { Off := 0, Len := toUint64 4097 } = .ok cstatOnePage) ∧
    ∃ n : Int, (FileCachestat envOnePage 3 4097).2 = .ret (some cstatOnePage, n, none) ∧
      (n - 1) * envOnePage.Getpagesize < 4097 ∧ 4097 ≤ n * envOnePage.Getpagesize ∧
      ∀ m : Int, (m - 1) * envOnePage.Getpagesize < 4097 →
        4097 ≤ m * envOnePage.Getpagesize → m = n :=
  ⟨⟨by decide, by decide, by decide, rfl⟩,
    C2_pcount_is_ceil envOnePage 3 4097 cstatOnePage (by decide) (by decide) (by decide) rfl⟩

/-- C2 as stated fails at the largest `int64` size: with 4096-byte pages and
a successful syscall, `size + 4096 - 1` wraps and the page count returned is
negative, so `size ≤ n * ps` is false. -/
theorem C2_counterexample :
    (0 : Int) < 2 ^ 63 - 1 ∧ (2 : Int) ^ 63 - 1 < 2 ^ 63 ∧
    (FileCachestat envOnePage 3 (2 ^ 63 - 1)).2 =
        .ret (some cstatOnePage, -2251799813685247, none) ∧
      ¬ ((2 : Int) ^ 63 - 1 ≤ -2251799813685247 * envOnePage.Getpagesize) := by
  refine ⟨by decide, by decide, by decide, by decide⟩

/-- The three sizes named with C2: 4096, 4097 and 8192 bytes on 4096-byte
pages give 1, 2 and 2 pages. -/
theorem FileCachestat_examples :
    (FileCachestat envOnePage 3 4096).2 = .ret (some cstatOnePage, 1, none) ∧
    (FileCachestat envOnePage 3 4097).2 = .ret (some cstatOnePage, 2, none) ∧
    (FileCachestat envOnePage 3 8192).2 = .ret (some cstatOnePage, 2, none) := by
  refine ⟨by decide, by decide, by decide⟩

/-- C3, the failing run. On an empty regular file with `useCachestat = true`
the syscall is not issued, `FileCachestat` hands back a nil counter record,
and `GetPcStatus` stops with a nil-pointer panic when it reads `cstat.Dirty`
instead of returning a record with `Pages = 0`. -/
theorem C3_empty_file_cachestat_panics :
    FileCachestat envEmptyFile 3 0 = ([], .ret (none, 0, none)) ∧
    GetPcStatus envEmptyFile "empty.log" true =
      ([.osOpen "empty.log", .fStat 3, .timeNow, .callFileCachestat 3 0, .fClose 3],
        .panic "runtime error: invalid memory address or nil pointer dereference") :=
  ⟨FileCachestat_zero (by decide),
    GetPcStatus_cachestat_zero_size
      (show envEmptyFile.Open "empty.log" = .ok 3 from rfl)
      (show envEmptyFile.Stat 3 = .ok { Size := 0, ModTime := 1700000000, Mode := .regular }
        from rfl)
      rfl (by decide)⟩

/-- C4. A successful `GetPcStatus` with `useCachestat = false` stores the
slice `s` that `FileMincore` returned: `PPStat = s`, `Pages = len(s)`,
`Cached` is the number of `true` entries of `s`, and `Dirty`, `Writeback`,
`Evicted`, `RecentlyEvicted` are all nil.  (`hlen`: a Go slice is shorter
than `2^63`.) -/
theorem C4_mincore_record (env : Env) (fname : String) (r : PcStatus)
    (hlen : ∀ fd size, ((env.FileMincore fd size).1.length : Int) < 2 ^ 63)
    (h : (GetPcStatus env fname false).2 = .ret (r, none)) :
    ∃ f fi s, env.Open fname = .ok f ∧ env.Stat f = .ok fi ∧
      env.FileMincore f fi.Size = (s, none) ∧
      r.PPStat = s ∧ r.Pages = (s.length : Int) ∧ r.Cached = (s.count true : Int) ∧
      r.Dirty = none ∧ r.Writeback = none ∧ r.Evicted = none ∧ r.RecentlyEvicted = none := by
  obtain ⟨f, fi, hO, hS, -, hc | hm⟩ := GetPcStatus_ok_cases h
  · exact absurd hc.1 (by decide)
  · obtain ⟨-, s, hM, rfl⟩ := hm
    have hl : (s.length : Int) < 2 ^ 63 := by
      have := hlen f fi.Size
      rwa [hM] at this
    refine ⟨f, fi, s, hO, hS, hM, rfl, ?_, ?_, rfl, rfl, rfl, rfl⟩
    · exact wrapInt64_eq_self (by omega) hl
    · have := countCached_eq s 0 (le_refl 0) (by omega)
      simpa [recMincore] using this

/-- C4, at a two-page file whose first page is resident. -/
theorem C4_mincore_record_witness :
    ((∀ fd size, ((envTwoPages.FileMincore fd size).1.length : Int) < 2 ^ 63) ∧
      (GetPcStatus envTwoPages "two.bin" false).2 =
        .ret (recMincore "two.bin" 1700000100 fiTwoPages [true, false], none)) ∧
    ∃ f fi s, envTwoPages.Open "two.bin" = .ok f ∧ envTwoPages.Stat f = .ok fi ∧
      envTwoPages.FileMincore f fi.Size = (s, none) ∧
      (recMincore "two.bin" 1700000100 fiTwoPages [true, false]).PPStat = s ∧
      (recMincore "two.bin" 1700000100 fiTwoPages [true, false]).Pages =
        (s.length : Int) ∧
      (recMincore "two.bin" 1700000100 fiTwoPages [true, false]).Cached =
        (s.count true : Int) ∧
      (recMincore "two.bin" 1700000100 fiTwoPages [true, false]).Dirty = none ∧
      (recMincore "two.bin" 1700000100 fiTwoPages [true, false]).Writeback =
        none ∧
      (recMincore "two.bin" 1700000100 fiTwoPages [true, false]).Evicted =
        none ∧
      (recMincore "two.bin" 1700000100 fiTwoPages [true, false]).RecentlyEvicted = none :=
  ⟨⟨fun _ _ => by simp [envTwoPages], by decide⟩,
    C4_mincore_record envTwoPages "two.bin" _ (fun _ _ => by simp [envTwoPages]) (by decide)⟩

/-- C6. When the path opens and stats and the metadata reports a directory,
`GetPcStatus` returns the error "file is a directory" under either value
of `useCachestat`, and neither `FileCachestat` nor `FileMincore` (nor the
syscall) is invoked. -/
theorem C6_directory_rejected (env : Env) (fname : String) (useCachestat : Bool)
    (f : Nat) (fi : FileInfo)
    (hO : env.Open fname = .ok f) (hS : env.Stat f = .ok fi)
    (hD : fi.Mode = FileType.directory) :
    (∃ r, (GetPcStatus env fname useCachestat).2 = .ret (r, some "file is a directory")) ∧
      ∀ ev ∈ (GetPcStatus env fname useCachestat).1, ev.isQuery = false := by
  have hd : fi.IsDir = true := by simp [FileInfo.IsDir, hD]
  rw [GetPcStatus_directory useCachestat hO hS hd]
  refine ⟨⟨_, rfl⟩, ?_⟩
  intro ev hev
  simp only [List.mem_cons, List.mem_singleton, List.not_mem_nil, or_false] at hev
  rcases hev with rfl | rfl | rfl <;> rfl

/-- C6, at a directory, with the cachestat strategy selected. -/
theorem C6_directory_rejected_witness :
    (envDirectory.Open "/var/log" = .ok 3 ∧
      envDirectory.Stat 3 =
        .ok { Size := 4096, ModTime := 1700000000, Mode := .directory } ∧
      FileType.directory = FileType.directory) ∧
    ((∃ r, (GetPcStatus envDirectory "/var/log" true).2 =
        .ret (r, some "file is a directory")) ∧
      ∀ ev ∈ (GetPcStatus envDirectory "/var/log" true).1, ev.isQuery = false) :=
  ⟨⟨rfl, rfl, rfl⟩,
    C6_directory_rejected envDirectory "/var/log" true 3
      { Size := 4096, ModTime := 1700000000, Mode := .directory } rfl rfl rfl⟩

/-- C5 as stated fails for a `Cache` counter of `2^63`: the run succeeds and
the record has `Cached = -2^63`, which is not the counter. -/
theorem C5_counterexample :
    envHugeCache.Cachestat 3 { Off := 0, Len := toUint64 4096 } = .ok cstatHugeCache ∧
    cstatHugeCache.Cache = 9223372036854775808 ∧
    (GetPcStatus envHugeCache "data.bin" true).2 =
      .ret (recCachestat "data.bin" 1700000100 fiOnePage cstatHugeCache 1, none) ∧
    (recCachestat "data.bin" 1700000100 fiOnePage cstatHugeCache 1).Cached =
      -9223372036854775808 ∧
    (recCachestat "data.bin" 1700000100 fiOnePage cstatHugeCache 1).Cached ≠
      (cstatHugeCache.Cache : Int) := by
  refine ⟨rfl, by decide, by decide, by decide, by decide⟩

/-- C5 (amended). A successful `GetPcStatus` with `useCachestat = true` ran
on a file of non-zero size for which the syscall returned counters `cstat`;
the record has `Cached = int(cstat.Cache)`, which is `Cache` itself when
`Cache < 2^63` and `Cache - 2^64` for a larger `uint64`; `Pages` is the page
count `FileCachestat` computed from the size; the four optional fields are
present and equal to the kernel counters; `PPStat` is empty; and replacing
`Dirty`, `Writeback`, `Evicted` and `Recently_evicted` by any other values
leaves `Cached`, `Pages` and `Uncached` unchanged. -/
theorem C5_cachestat_record (env : Env) (fname : String) (r : PcStatus)
    (h : (GetPcStatus env fname true).2 = .ret (r, none)) :
    ∃ f fi cstat, env.Open fname = .ok f ∧ env.Stat f = .ok fi ∧
      wrapInt64 fi.Size ≠ 0 ∧
      env.Cachestat f { Off := 0, Len := toUint64 fi.Size } = .ok cstat ∧
      (FileCachestat env f fi.Size).2 = .ret (some cstat, r.Pages, none) ∧
      r.Cached = wrapInt64 cstat.Cache ∧
      ((cstat.Cache : Int) < 2 ^ 63 → r.Cached = (cstat.Cache : Int)) ∧
      ((2 : Int) ^ 63 ≤ cstat.Cache → (cstat.Cache : Int) < 2 ^ 64 →
        r.Cached = (cstat.Cache : Int) - 2 ^ 64) ∧
      r.Dirty = some cstat.Dirty ∧ r.Writeback = some cstat.Writeback ∧
      r.Evicted = some cstat.Evicted ∧ r.RecentlyEvicted = some cstat.Recently_evicted ∧
      r.PPStat = [] ∧
      ∀ d w e re : Nat, ∃ r2,
        (GetPcStatus (withOtherCounters env cstat d w e re) fname true).2 = .ret (r2, none) ∧
        r2.Cached = r.Cached ∧ r2.Pages = r.Pages ∧ r2.Uncached = r.Uncached ∧
        r2.Dirty = some d ∧ r2.Writeback = some w ∧ r2.Evicted = some e ∧
        r2.RecentlyEvicted = some re := by
  obtain ⟨f, fi, hO, hS, hD, hc | hm⟩ := GetPcStatus_ok_cases h
  · obtain ⟨-, tr, cstat, psize, hF, rfl⟩ := hc
    obtain ⟨h0, hp, hC, -, hps⟩ := FileCachestat_ok_cases hF
    refine ⟨f, fi, cstat, hO, hS, h0, hC, by rw [hF]; rfl, rfl, ?_, ?_,
      rfl, rfl, rfl, rfl, rfl, ?_⟩
    · intro hlt
      exact wrapInt64_eq_self (by omega) hlt
    · intro hge hlt
      simp only [recCachestat]
      unfold wrapInt64
      omega
    · intro d w e re
      have hF2 : FileCachestat (withOtherCounters env cstat d w e re) f fi.Size =
          ([.cachestatSyscall f { Off := 0, Len := toUint64 fi.Size }],
            .ret (some { cstat with Dirty := d, Writeback := w, Evicted := e,
                                    Recently_evicted := re }, psize, none)) := by
        rw [hps]
        exact FileCachestat_ok h0 hp rfl
      have hG := GetPcStatus_cachestat_ok
        (show (withOtherCounters env cstat d w e re).Open fname = .ok f from hO)
        (show (withOtherCounters env cstat d w e re).Stat f = .ok fi from hS) hD hF2
      exact ⟨recCachestat fname env.Now fi
        { cstat with Dirty := d, Writeback := w, Evicted := e, Recently_evicted := re } psize,
        by rw [hG]; rfl, rfl, rfl, rfl, rfl, rfl, rfl, rfl⟩
  · exact absurd hm.1 (by decide)

/-- C5 (amended), at a one-page file with one cached page. -/
theorem C5_cachestat_record_witness :
    (GetPcStatus envOnePage "data.bin" true).2 =
        .ret (recCachestat "data.bin" 1700000100 fiOnePage cstatOnePage 1, none) ∧
    ∃ f fi cstat, envOnePage.Open "data.bin" = .ok f ∧ envOnePage.Stat f = .ok fi ∧
      wrapInt64 fi.Size ≠ 0 ∧
      envOnePage.Cachestat f { Off := 0, Len := toUint64 fi.Size } = .ok cstat ∧
      (FileCachestat envOnePage f fi.Size).2 =
        .ret (some cstat, (recCachestat "data.bin" 1700000100 fiOnePage cstatOnePage 1).Pages,
          none) ∧
      (recCachestat "data.bin" 1700000100 fiOnePage cstatOnePage 1).Cached =
        wrapInt64 cstat.Cache ∧
      ((cstat.Cache : Int) < 2 ^ 63 →
        (recCachestat "data.bin" 1700000100 fiOnePage cstatOnePage 1).Cached =
          (cstat.Cache : Int)) ∧
      ((2 : Int) ^ 63 ≤ cstat.Cache → (cstat.Cache : Int) < 2 ^ 64 →
        (recCachestat "data.bin" 1700000100 fiOnePage cstatOnePage 1).Cached =
          (cstat.Cache : Int) - 2 ^ 64) ∧
      (recCachestat "data.bin" 1700000100 fiOnePage cstatOnePage 1).Dirty = some cstat.Dirty ∧
      (recCachestat "data.bin" 1700000100 fiOnePage cstatOnePage 1).Writeback =
        some cstat.Writeback ∧
      (recCachestat "data.bin" 1700000100 fiOnePage cstatOnePage 1).Evicted =
        some cstat.Evicted ∧
      (recCachestat "data.bin" 1700000100 fiOnePage cstatOnePage 1).RecentlyEvicted =
        some cstat.Recently_evicted ∧
      (recCachestat "data.bin" 1700000100 fiOnePage cstatOnePage 1).PPStat = [] ∧
      ∀ d w e re : Nat, ∃ r2,
        (GetPcStatus (withOtherCounters envOnePage cstat d w e re) "data.bin" true).2 =
          .ret (r2, none) ∧
        r2.Cached = (recCachestat "data.bin" 1700000100 fiOnePage cstatOnePage 1).Cached ∧
        r2.Pages = (recCachestat "data.bin" 1700000100 fiOnePage cstatOnePage 1).Pages ∧
        r2.Uncached = (recCachestat "data.bin" 1700000100 fiOnePage cstatOnePage 1).Uncached ∧
        r2.Dirty = some d ∧ r2.Writeback = some w ∧ r2.Evicted = some e ∧
        r2.RecentlyEvicted = some re :=
  ⟨by decide, C5_cachestat_record envOnePage "data.bin"
    (recCachestat "data.bin" 1700000100 fiOnePage cstatOnePage 1) (by decide)⟩

/-- C9. On a regular file of size `> 0`, if the syscall fails with error
`e` then `FileCachestat` returns an error whose text contains the text of
`e`, and `GetPcStatus` with `useCachestat = true` returns that same error
(never a nil error) without invoking `FileMincore`.  (`hp`: the page size
the system reports is positive.) -/
theorem C9_cachestat_failure_surfaces (env : Env) (fname : String) (f : Nat)
    (fi : FileInfo) (e : String)
    (hO : env.Open fname = .ok f) (hS : env.Stat f = .ok fi) (hD : fi.IsDir = false)
    (hs : 0 < fi.Size) (hs2 : fi.Size < 2 ^ 63)
    (hp : 0 < env.Getpagesize) (hp2 : env.Getpagesize < 2 ^ 63)
    (hC : env.Cachestat f { Off := 0, Len := toUint64 fi.Size } = .error e) :
    ∃ msg, (FileCachestat env f fi.Size).2 = .ret (none, 0, some msg) ∧
      containsText msg e ∧
      (∃ r, (GetPcStatus env fname true).2 = .ret (r, some msg)) ∧
      (∀ r, (GetPcStatus env fname true).2 ≠ .ret (r, none)) ∧
      ∀ size, Event.callFileMincore f size ∉ (GetPcStatus env fname true).1 := by
  have h0 : wrapInt64 fi.Size ≠ 0 := by
    rw [wrapInt64_eq_self (by omega) hs2]; omega
  have hp0 : wrapInt64 env.Getpagesize ≠ 0 := by
    rw [wrapInt64_eq_self (by omega) hp2]; omega
  have hF := FileCachestat_error h0 hp0 hC
  have hG := GetPcStatus_cachestat_error hO hS hD hF
  refine ⟨"cachestat syscall failed: " ++ e, by rw [hF], ⟨"cachestat syscall failed: ", "", ?_⟩,
    ⟨_, by rw [hG]⟩, ?_, ?_⟩
  · simp
  · intro r hr
    rw [hG] at hr
    simp at hr
  · intro size hmem
    rw [hG] at hmem
    simp at hmem

/-- C9, on a kernel that does not implement the syscall. -/
theorem C9_cachestat_failure_surfaces_witness :
    (envNoSyscall.Open "data.bin" = .ok 3 ∧ envNoSyscall.Stat 3 = .ok fiOnePage ∧
      fiOnePage.IsDir = false ∧ 0 < fiOnePage.Size ∧ fiOnePage.Size < 2 ^ 63 ∧
      0 < envNoSyscall.Getpagesize ∧ envNoSyscall.Getpagesize < 2 ^ 63 ∧
      envNoSyscall.Cachestat 3 { Off := 0, Len := toUint64 fiOnePage.Size } =
        .error "function not implemented") ∧
    ∃ msg, (FileCachestat envNoSyscall 3 fiOnePage.Size).2 = .ret (none, 0, some msg) ∧
      containsText msg "function not implemented" ∧
      (∃ r, (GetPcStatus envNoSyscall "data.bin" true).2 = .ret (r, some msg)) ∧
      (∀ r, (GetPcStatus envNoSyscall "data.bin" true).2 ≠ .ret (r, none)) ∧
      ∀ size, Event.callFileMincore 3 size ∉ (GetPcStatus envNoSyscall "data.bin" true).1 :=
  ⟨⟨rfl, rfl, rfl, by decide, by decide, by decide, by decide, rfl⟩,
    C9_cachestat_failure_surfaces envNoSyscall "data.bin" 3 fiOnePage
      "function not implemented" rfl rfl rfl (by decide) (by decide) (by decide) (by decide)
      rfl⟩

/-- C7 as stated fails on a named pipe: the path opens and stats, the
metadata says it is not a regular file, and `GetPcStatus` still calls
`FileMincore` and returns a record with a nil error. -/
theorem C7_counterexample :
    envNamedPipe.Open "/run/ctl.fifo" = .ok 3 ∧
    envNamedPipe.Stat 3 = .ok { Size := 0, ModTime := 1700000000, Mode := .namedPipe } ∧
    FileInfo.IsRegular { Size := 0, ModTime := 1700000000, Mode := .namedPipe } = false ∧
    GetPcStatus envNamedPipe "/run/ctl.fifo" false =
      ([.osOpen "/run/ctl.fifo", .fStat 3, .timeNow, .callFileMincore 3 0, .fClose 3],
        .ret ({ Name := "/run/ctl.fifo", Timestamp := 1700000100, Mtime := 1700000000 },
          none)) := by
  refine ⟨rfl, rfl, rfl, by decide⟩

/-- C7 (amended). For a path that opens and stats, `GetPcStatus` fails with
"file is a directory" before any residency query when the metadata reports
a directory; for every other file type, regular or not, the selected
strategy function is invoked on the file. -/
theorem C7_only_directories_rejected (env : Env) (fname : String) (useCachestat : Bool)
    (f : Nat) (fi : FileInfo)
    (hO : env.Open fname = .ok f) (hS : env.Stat f = .ok fi) :
    (fi.Mode = FileType.directory →
      (∃ r, (GetPcStatus env fname useCachestat).2 = .ret (r, some "file is a directory")) ∧
        ∀ ev ∈ (GetPcStatus env fname useCachestat).1, ev.isQuery = false) ∧
    (fi.Mode ≠ FileType.directory →
      (if useCachestat then Event.callFileCachestat f fi.Size
        else Event.callFileMincore f fi.Size) ∈ (GetPcStatus env fname useCachestat).1) := by
  constructor
  · intro hD
    have hd : fi.IsDir = true := by simp [FileInfo.IsDir, hD]
    rw [GetPcStatus_directory useCachestat hO hS hd]
    refine ⟨⟨_, rfl⟩, ?_⟩
    intro ev hev
    simp only [List.mem_cons, List.mem_singleton, List.not_mem_nil, or_false] at hev
    rcases hev with rfl | rfl | rfl <;> rfl
  · intro hD
    have hd : fi.IsDir = false := by simp [FileInfo.IsDir, hD]
    cases useCachestat with
    | true =>
      rw [GetPcStatus_cachestat_trace hO hS hd]
      simp
    | false =>
      rw [GetPcStatus_mincore hO hS hd]
      simp

/-- C7 (amended), at a named pipe with the cachestat strategy selected. -/
theorem C7_only_directories_rejected_witness :
    (envNamedPipe.Open "/run/ctl.fifo" = .ok 3 ∧
      envNamedPipe.Stat 3 = .ok { Size := 0, ModTime := 1700000000, Mode := .namedPipe }) ∧
    (if true then Event.callFileCachestat 3 0 else Event.callFileMincore 3 0) ∈
      (GetPcStatus envNamedPipe "/run/ctl.fifo" true).1 :=
  ⟨⟨rfl, rfl⟩,
    (C7_only_directories_rejected envNamedPipe "/run/ctl.fifo" true 3
      { Size := 0, ModTime := 1700000000, Mode := .namedPipe } rfl rfl).2 (by decide)⟩

/-- C8 as stated fails when the selected query fails: on a kernel without
the syscall, `GetPcStatus` returns the error together with a record whose
`Size`, `Timestamp` and `Mtime` have been set. -/
theorem C8_counterexample :
    (GetPcStatus envNoSyscall "data.bin" true).2 =
      .ret ({ Name := "data.bin", Size := 4096, Timestamp := 1700000100,
              Mtime := 1700000000 },
        some "cachestat syscall failed: function not implemented") ∧
    ({ Name := "data.bin", Size := 4096, Timestamp := 1700000100,
       Mtime := 1700000000 } : PcStatus).Size ≠ 0 := by
  refine ⟨by decide, by decide⟩

/-- C8 (amended). Whenever `GetPcStatus` returns an error, `Pages`, `Cached`,
`Uncached` and the four optional counters are unset.  After an open failure,
a stat failure or a directory the record holds the name only.  After a
failure of the selected residency query the record holds the name, `Size`,
`Timestamp` and `Mtime`, and `PPStat` is empty under the cachestat strategy
and is the slice `FileMincore` returned under the bitmap strategy. -/
theorem C8_error_record (env : Env) (fname : String) (useCachestat : Bool)
    (r : PcStatus) (e : String)
    (h : (GetPcStatus env fname useCachestat).2 = .ret (r, some e)) :
    (r.Name = fname ∧ r.Pages = 0 ∧ r.Cached = 0 ∧ r.Uncached = 0 ∧ r.Dirty = none ∧
      r.Writeback = none ∧ r.Evicted = none ∧ r.RecentlyEvicted = none) ∧
    ((((∃ e0, env.Open fname = .error e0) ∨
        (∃ f e0, env.Open fname = .ok f ∧ env.Stat f = .error e0) ∨
        (∃ f fi, env.Open fname = .ok f ∧ env.Stat f = .ok fi ∧ fi.IsDir = true)) ∧
      r.Size = 0 ∧ r.Timestamp = 0 ∧ r.Mtime = 0 ∧ r.PPStat = []) ∨
     (∃ f fi, env.Open fname = .ok f ∧ env.Stat f = .ok fi ∧ fi.IsDir = false ∧
      r.Size = fi.Size ∧ r.Timestamp = env.Now ∧ r.Mtime = fi.ModTime ∧
      r.PPStat = if useCachestat then [] else (env.FileMincore f fi.Size).1)) := by
  rcases GetPcStatus_error_cases h with ⟨rfl, hc⟩ | ⟨f, fi, hO, hS, hD, rfl⟩
  · exact ⟨⟨rfl, rfl, rfl, rfl, rfl, rfl, rfl, rfl⟩, Or.inl ⟨hc, rfl, rfl, rfl, rfl⟩⟩
  · exact ⟨⟨rfl, rfl, rfl, rfl, rfl, rfl, rfl, rfl⟩,
      Or.inr ⟨f, fi, hO, hS, hD, rfl, rfl, rfl, rfl⟩⟩

/-- C8 (amended), at a directory. -/
theorem C8_error_record_witness :
    (GetPcStatus envDirectory "/var/log" false).2 =
      .ret ({ Name := "/var/log" }, some "file is a directory") ∧
    (({ Name := "/var/log" } : PcStatus).Name = "/var/log" ∧
      ({ Name := "/var/log" } : PcStatus).Pages = 0 ∧
      ({ Name := "/var/log" } : PcStatus).Cached = 0 ∧
      ({ Name := "/var/log" } : PcStatus).Uncached = 0 ∧
      ({ Name := "/var/log" } : PcStatus).Dirty = none ∧
      ({ Name := "/var/log" } : PcStatus).Writeback = none ∧
      ({ Name := "/var/log" } : PcStatus).Evicted = none ∧
      ({ Name := "/var/log" } : PcStatus).RecentlyEvicted = none) :=
  ⟨by decide,
    (C8_error_record envDirectory "/var/log" false { Name := "/var/log" }
      "file is a directory" (by decide)).1⟩

/-- C10 as stated fails under the cachestat strategy: a `Cache` counter of 2
on a one-page file gives a successful record with `Uncached = -1`. -/
theorem C10_counterexample :
    (GetPcStatus envTwoCached "data.bin" true).2 =
      .ret ({ Name := "data.bin", Size := 4096, Timestamp := 1700000100,
              Mtime := 1700000000, Pages := 1, Cached := 2, Uncached := -1,
              Dirty := some 0, Writeback := some 0, Evicted := some 0,
              RecentlyEvicted := some 0 }, none) ∧
    ¬ ((0 : Int) ≤ -1) := by
  refine ⟨by decide, by decide⟩

/-- C10 (amended). For every successful `GetPcStatus`: under the bitmap
strategy `0 ≤ Cached ≤ Pages` and `Uncached ≥ 0` for every bool sequence
`FileMincore` returns (`hlen`: the slice in the record is shorter than
`2^63`, as every Go slice is); under the cachestat strategy the same holds
whenever the `Cache` counter the syscall returned in that run is at most the
page count. -/
theorem C10_counts_nonneg (env : Env) (fname : String) (useCachestat : Bool)
    (r : PcStatus) (hlen : (r.PPStat.length : Int) < 2 ^ 63)
    (h : (GetPcStatus env fname useCachestat).2 = .ret (r, none)) :
    (useCachestat = false → 0 ≤ r.Cached ∧ 0 ≤ r.Uncached ∧ r.Cached ≤ r.Pages) ∧
    (useCachestat = true →
      ∃ f fi cstat, env.Open fname = .ok f ∧ env.Stat f = .ok fi ∧
        env.Cachestat f { Off := 0, Len := toUint64 fi.Size } = .ok cstat ∧
        ((cstat.Cache : Int) ≤ r.Pages →
          0 ≤ r.Cached ∧ 0 ≤ r.Uncached ∧ r.Cached ≤ r.Pages)) := by
  obtain ⟨f, fi, hO, hS, hD, hc | hm⟩ := GetPcStatus_ok_cases h
  · obtain ⟨hu, tr, cstat, psize, hF, rfl⟩ := hc
    obtain ⟨-, -, hC, -, -⟩ := FileCachestat_ok_cases hF
    have hps := recCachestat_pages_range hF
    have hpu := wrapInt64_upper psize
    rw [hps] at hpu
    constructor
    · intro hf
      rw [hu] at hf
      exact absurd hf (by decide)
    · intro _
      refine ⟨f, fi, cstat, hO, hS, hC, ?_⟩
      intro hle
      simp only [recCachestat] at hle
      have hcv : wrapInt64 (cstat.Cache : Int) = cstat.Cache :=
        wrapInt64_eq_self (by omega) (by omega)
      have hsub : goSub psize (cstat.Cache : Int) = psize - cstat.Cache :=
        wrapInt64_eq_self (by omega) (by omega)
      simp only [recCachestat, hcv, hsub]
      omega
  · obtain ⟨hu, s, hM, rfl⟩ := hm
    have hl : (s.length : Int) < 2 ^ 63 := hlen
    have hcnt : (s.count true : Int) ≤ s.length := by
      exact_mod_cast List.count_le_length true s
    have hp : wrapInt64 (s.length : Int) = s.length := wrapInt64_eq_self (by omega) hl
    have hcc : countCached s 0 = (s.count true : Int) := by
      have := countCached_eq s 0 (le_refl 0) (by omega)
      simpa using this
    have hsub : goSub (s.length : Int) (s.count true : Int) = s.length - s.count true :=
      wrapInt64_eq_self (by omega) (by omega)
    constructor
    · intro _
      simp only [recMincore, hp, hcc, hsub]
      omega
    · intro ht
      rw [hu] at ht
      exact absurd ht (by decide)

/-- C10 (amended), at a two-page file whose first page is resident under the
bitmap strategy (`Cached = 1`, `Uncached = 1`, `Pages = 2`), and at a
one-page file with a `Cache` counter of 1 under the cachestat strategy
(`Cached = 1`, `Uncached = 0`, `Pages = 1`). -/
theorem C10_counts_nonneg_witness :
    ((((recMincore "two.bin" 1700000100 fiTwoPages [true, false]).PPStat.length : Int)
        < 2 ^ 63 ∧
      (GetPcStatus envTwoPages "two.bin" false).2 =
        .ret (recMincore "two.bin" 1700000100 fiTwoPages [true, false], none)) ∧
    (0 ≤ (recMincore "two.bin" 1700000100 fiTwoPages [true, false]).Cached ∧
      0 ≤ (recMincore "two.bin" 1700000100 fiTwoPages [true, false]).Uncached ∧
      (recMincore "two.bin" 1700000100 fiTwoPages [true, false]).Cached ≤
        (recMincore "two.bin" 1700000100 fiTwoPages [true, false]).Pages)) ∧
    ((((recCachestat "data.bin" 1700000100 fiOnePage cstatOnePage 1).PPStat.length : Int)
        < 2 ^ 63 ∧
      (GetPcStatus envOnePage "data.bin" true).2 =
        .ret (recCachestat "data.bin" 1700000100 fiOnePage cstatOnePage 1, none)) ∧
    (0 ≤ (recCachestat "data.bin" 1700000100 fiOnePage cstatOnePage 1).Cached ∧
      0 ≤ (recCachestat "data.bin" 1700000100 fiOnePage cstatOnePage 1).Uncached ∧
      (recCachestat "data.bin" 1700000100 fiOnePage cstatOnePage 1).Cached ≤
        (recCachestat "data.bin" 1700000100 fiOnePage cstatOnePage 1).Pages)) :=
  ⟨⟨⟨by decide, by decide⟩,
    (C10_counts_nonneg envTwoPages "two.bin" false
      (recMincore "two.bin" 1700000100 fiTwoPages [true, false]) (by decide)
      (by decide)).1 rfl⟩,
   ⟨⟨by decide, by decide⟩, by
    obtain ⟨f, fi, cstat, -, -, hC, himp⟩ :=
      (C10_counts_nonneg envOnePage "data.bin" true
        (recCachestat "data.bin" 1700000100 fiOnePage cstatOnePage 1) (by decide)
        (by decide)).2 rfl
    have hc : cstat = cstatOnePage := by
      simp [envOnePage] at hC
      exact hC.symm
    subst hc
    exact himp (by decide)⟩⟩

end Pcstat
